import Mathlib

/-!
Verification of the `biokb_obo` import pipeline (`src/biokb_obo/db/manager.py`
and `src/biokb_obo/db/models.py`).

This file shallowly embeds the database state, the term extractor, and
the orchestrator (`DbManager.import_data`) as pure Lean functions, and
proves (or refutes) the spec's claims about them.

Modelling notes, faithful to the source:

* The relational state is embedded as lists of rows, one list per table.
  The manager writes string identifiers (`Term.id = cls.name`,
  `ontology_id = ontology.id = onto.name`), i.e. the native-string-identifier
  schema the spec adopts in its design notes; row shapes follow the dicts
  built in `manager.py` lines 118-133 and 154-219.

* `session.query(models.Ontology).filter(models.Ontology.id == obo_name).delete()`
  (manager.py lines 108-110) is a SQLAlchemy bulk/query delete. SQLAlchemy
  documents that a query-level delete does NOT apply relationship-configured
  cascade rules (the `cascade="all, delete-orphan"` declarations in
  `models.py` only act when ORM objects are deleted through the session), and
  the ForeignKey columns in `models.py` declare no database-level
  ON DELETE CASCADE; the default connection string is SQLite, which does not
  enforce foreign keys by default. Hence the embedded delete removes only the
  matching `Ontology` rows and leaves child rows in place. This is the
  behaviour `deleteOntologyQuery` embeds.

* Download + parse (manager.py lines 113-116) are external effects; they are
  embedded as an environment `Env : String → Except String OwlOntology`.
  A raised exception propagates out of `import_data` (there is no
  try/except); the `with self.session as session:` block then closes the
  session, rolling back anything not yet committed, so the visible database
  state on failure is the last committed state. `ImportResult.returned` is
  `none` when the call raised and `some counts` when it returned normally.

* `owlready2` attribute access: `hasattr(cls, p) and cls.p` is true exactly
  when the annotation list is nonempty; an absent property behaves like the
  empty list in every branch of the extractor, so annotation properties are
  embedded as `List String` (empty = absent).

* `models.Base.metadata.drop_all` / `create_all` (manager.py lines 84-86):
  dropping and recreating the schema empties every table; `create_all`
  without a preceding drop leaves existing rows untouched.
-/

namespace BiokbObo

/-- Row of `obo_ontology` as written by `DbManager.import_data`
(manager.py lines 118-133): `id = onto.name`, `iri = onto.base_iri`,
`version` / `description` / `title` from the first metadata values. -/
structure OntologyRow where
  id : String
  iri : String
  version : Option String
  description : Option String
  title : Option String
deriving DecidableEq

/-- Row of `obo_term` as built in `terms_data` (manager.py lines 154-161). -/
structure TermRow where
  id : String
  name : String
  definition : Option String
  ontology_id : String
deriving DecidableEq

/-- Row of `obo_synonym` as built in `synonyms_data`
(manager.py lines 163-199). -/
structure SynonymRow where
  term_id : String
  synonym : String
  type : String
deriving DecidableEq

/-- Row of `obo_identifier` as built in `identifiers_data`
(manager.py lines 214-219). -/
structure IdentifierRow where
  term_id : String
  identifier : String
deriving DecidableEq

/-- Row of `obo_xref` as built in `xrefs_data` (manager.py lines 201-212). -/
structure XRefRow where
  term_id : String
  database : String
  reference_id : String
deriving DecidableEq

/-- The committed relational state: one list of rows per table. -/
structure DbState where
  ontologies : List OntologyRow
  terms : List TermRow
  synonyms : List SynonymRow
  identifiers : List IdentifierRow
  xrefs : List XRefRow
deriving DecidableEq

/-- The state right after `drop_all` + `create_all`: every table empty. -/
def DbState.empty : DbState := ⟨[], [], [], [], []⟩

/-- An ontology class as exposed by owlready2: `cls.name` plus the
annotation lists the extractor reads (empty list = property absent). -/
structure OwlClass where
  name : String
  label : List String
  IAO_0000115 : List String
  hasExactSynonym : List String
  hasRelatedSynonym : List String
  hasNarrowSynonym : List String
  hasBroadSynonym : List String
  hasDbXref : List String
  hasAlternativeId : List String
deriving DecidableEq

/-- A parsed ontology handle as returned by `get_ontology(...).load()`:
name, base IRI, metadata lists, and the class iterator. -/
structure OwlOntology where
  name : String
  base_iri : String
  versionInfo : List String
  description : List String
  title : List String
  classes : List OwlClass
deriving DecidableEq

/-- The four record batches accumulated before bulk insert
(manager.py lines 138-141). -/
structure Batches where
  terms : List TermRow
  synonyms : List SynonymRow
  identifiers : List IdentifierRow
  xrefs : List XRefRow
deriving DecidableEq

/-- Split a character list at the first occurrence of `sep`:
`none` when `sep` does not occur; otherwise the parts strictly before and
strictly after the first occurrence. Embeds Python's
`xref.split(":", 1)` under the guard `":" in xref`. -/
def splitFirst (sep : Char) : List Char → Option (List Char × List Char)
  | [] => none
  | c :: cs =>
    if c = sep then some ([], cs)
    else
      match splitFirst sep cs with
      | none => none
      | some (d, r) => some (c :: d, r)

/-- The xref loop body (manager.py lines 203-212): a value without `":"`
yields no row; otherwise one row split at the first `":"`. -/
def xrefRowsForValue (term_id v : String) : List XRefRow :=
  match splitFirst ':' v.toList with
  | none => []
  | some (d, r) => [⟨term_id, String.mk d, String.mk r⟩]

/-- All xref rows of one class, in `hasDbXref` order
(manager.py lines 202-212). -/
def xrefRows (term_id : String) : List String → List XRefRow
  | [] => []
  | v :: vs => xrefRowsForValue term_id v ++ xrefRows term_id vs

/-- Synonym rows of one annotation kind (manager.py lines 164-199):
one row per value, tagged with the kind. -/
def synonymRowsFor (term_id ty : String) (vals : List String) : List SynonymRow :=
  vals.map fun s => ⟨term_id, s, ty⟩

/-- Alternative-identifier rows (manager.py lines 215-219). -/
def identifierRows (term_id : String) (vals : List String) : List IdentifierRow :=
  vals.map fun a => ⟨term_id, a⟩

/-- Extraction of a single class (manager.py lines 144-219): a class is
materialized only when `hasattr(cls, "label") and cls.label` holds, i.e.
its label list is nonempty; then `term_id = cls.name`,
`name = str(cls.label[0]) if cls.label else term_id`,
`definition` is the first `IAO_0000115` value if any. -/
def extractClass (ontology_id : String) (cls : OwlClass) : Batches :=
  if cls.label ≠ [] then
    let term_id := cls.name
    let name := match cls.label with
      | [] => term_id
      | l :: _ => l
    let definition := cls.IAO_0000115.head?
    { terms := [⟨term_id, name, definition, ontology_id⟩]
      synonyms :=
        synonymRowsFor term_id "exact" cls.hasExactSynonym ++
        synonymRowsFor term_id "related" cls.hasRelatedSynonym ++
        synonymRowsFor term_id "narrow" cls.hasNarrowSynonym ++
        synonymRowsFor term_id "broad" cls.hasBroadSynonym
      identifiers := identifierRows term_id cls.hasAlternativeId
      xrefs := xrefRows term_id cls.hasDbXref }
  else
    ⟨[], [], [], []⟩

/-- The full extractor loop `for cls in onto.classes()`: batches of all
classes concatenated in iteration order. -/
def extractOntology (ontology_id : String) : List OwlClass → Batches
  | [] => ⟨[], [], [], []⟩
  | c :: rest =>
    let b := extractClass ontology_id c
    let r := extractOntology ontology_id rest
    ⟨b.terms ++ r.terms, b.synonyms ++ r.synonyms,
     b.identifiers ++ r.identifiers, b.xrefs ++ r.xrefs⟩

/-- The returned count mapping. `import_data` returns a `defaultdict(int)`
keyed by the four record kinds; absent keys read as 0, so the mapping is
embedded as four natural-number counters (all 0 = the empty mapping). -/
structure Counts where
  terms : Nat
  synonyms : Nat
  identifiers : Nat
  xrefs : Nat
deriving DecidableEq

/-- The freshly initialized `defaultdict(int)`. -/
def Counts.zero : Counts := ⟨0, 0, 0, 0⟩

/-- Pointwise sum of two count mappings. -/
def Counts.add (a b : Counts) : Counts :=
  ⟨a.terms + b.terms, a.synonyms + b.synonyms,
   a.identifiers + b.identifiers, a.xrefs + b.xrefs⟩

/-- Per-kind sizes of one batch set: what lines 235-238 add to
`returned_data` for one ontology. -/
def batchCounts (b : Batches) : Counts :=
  ⟨b.terms.length, b.synonyms.length, b.identifiers.length, b.xrefs.length⟩

/-- `"\n".join(...) if list else None` (manager.py lines 127-131). -/
def joinLines : List String → Option String
  | [] => none
  | x :: xs => some (String.intercalate "\n" (x :: xs))

/-- The `models.Ontology(...)` row built at manager.py lines 118-133.
Note the row id is `onto.name` (the parsed ontology's own name), not the
requested `obo_name`. -/
def ontologyRowOf (onto : OwlOntology) : OntologyRow :=
  ⟨onto.name, onto.base_iri, onto.versionInfo.head?,
   joinLines onto.description, onto.title.head?⟩

/-- The bulk/query delete at manager.py lines 108-110:
`DELETE FROM obo_ontology WHERE id = obo_name`. A SQLAlchemy query-level
delete does not apply the relationship cascades declared in models.py, the
foreign keys carry no ON DELETE CASCADE, and SQLite does not enforce them
by default, so only the `Ontology` rows themselves are removed; Term,
Synonym, Identifier and XRef rows stay behind. -/
def deleteOntologyQuery (db : DbState) (name : String) : DbState :=
  { db with ontologies := db.ontologies.filter fun o => ¬ o.id = name }

/-- One committed per-ontology transaction (manager.py lines 134-232):
the new Ontology row plus the four bulk-inserted batches. -/
def commitBatches (db : DbState) (row : OntologyRow) (b : Batches) : DbState :=
  { ontologies := db.ontologies ++ [row]
    terms := db.terms ++ b.terms
    synonyms := db.synonyms ++ b.synonyms
    identifiers := db.identifiers ++ b.identifiers
    xrefs := db.xrefs ++ b.xrefs }

/-- External download + parse (manager.py lines 113-116): given an
ontology name, either a parsed handle or a raised error message. -/
abbrev Env := String → Except String OwlOntology

/-- Externally observable side effects of one run: `fetch name` records a
call to `__download_data` for that name, `removeFile name` the
`os.remove` after a successful commit (manager.py lines 240-242). -/
inductive Event where
  | fetch (name : String)
  | removeFile (name : String)
deriving DecidableEq

/-- Outcome of a call to `DbManager.import_data`: the committed database
state visible afterwards, the returned count mapping (`none` when the call
raised and the exception propagated), and the effect trace. -/
structure ImportResult where
  db : DbState
  returned : Option Counts
  events : List Event
deriving DecidableEq

/-- The `for obo_name in obo_names:` loop of `DbManager.import_data`
(manager.py lines 89-242), threading the committed state, the
`returned_data` accumulator, and the effect trace.

Per name: look up an existing `Ontology` row by id; skip when found and
`overwrite` is false; when found and `overwrite` is true, bulk-delete the
Ontology row and commit that deletion on its own; then download + parse
(any exception propagates, leaving the committed state as is); then build
the Ontology row, extract, bulk-insert and commit as one transaction,
accumulate the counts, and remove the file unless `keep_files`. -/
def importLoop (env : Env) (overwrite keepFiles : Bool) :
    List String → DbState → Counts → List Event → ImportResult
  | [], db, acc, evs => ⟨db, some acc, evs⟩
  | name :: rest, db, acc, evs =>
    let existing : Bool := db.ontologies.any fun o => o.id == name
    if existing && !overwrite then
      importLoop env overwrite keepFiles rest db acc evs
    else
      let db1 := if overwrite && existing then deleteOntologyQuery db name else db
      let evs1 := evs ++ [Event.fetch name]
      match env name with
      | .error _ => ⟨db1, none, evs1⟩
      | .ok onto =>
        let row := ontologyRowOf onto
        let b := extractOntology row.id onto.classes
        let db2 := commitBatches db1 row b
        let acc2 := acc.add (batchCounts b)
        let evs2 := evs1 ++ if keepFiles then [] else [Event.removeFile name]
        importLoop env overwrite keepFiles rest db2 acc2 evs2

/-- `DbManager.import_data` (manager.py lines 75-244): when `rebuild` is
true the schema is dropped and recreated once, before any name is
processed (emptying every table); then the per-name loop runs with a fresh
`defaultdict(int)`. `force_download` only controls whether a cached local
file is reused inside `__download_data` and has no database effect. -/
def importData (env : Env) (names : List String)
    (rebuild overwrite forceDownload keepFiles : Bool) (db : DbState) :
    ImportResult :=
  let db0 := if rebuild then DbState.empty else db
  importLoop env overwrite keepFiles names db0 Counts.zero []

/-- The module-level convenience function (manager.py lines 247-266): it
constructs a `DbManager` and calls `import_data` passing only
`force_download` and `keep_files`, so `obo_names` keeps its default `[]`
and `rebuild` / `overwrite` their default `False`. -/
def moduleImportData (env : Env) (forceDownload keepFiles : Bool)
    (db : DbState) : ImportResult :=
  importData env [] false false forceDownload keepFiles db

/-- Spec-side companion of the count aggregation (§4.2 step 10): the list
of per-ontology batch sets that actually get bulk-inserted during a run,
in processing order, mirroring the loop's skip / overwrite / failure
decisions. -/
def insertedBatches (env : Env) (overwrite : Bool) :
    List String → DbState → List Batches
  | [], _ => []
  | name :: rest, db =>
    let existing : Bool := db.ontologies.any fun o => o.id == name
    if existing && !overwrite then insertedBatches env overwrite rest db
    else
      let db1 := if overwrite && existing then deleteOntologyQuery db name else db
      match env name with
      | .error _ => []
      | .ok onto =>
        let row := ontologyRowOf onto
        let b := extractOntology row.id onto.classes
        b :: insertedBatches env overwrite rest (commitBatches db1 row b)

/-- Pointwise sum of the per-kind sizes of a list of batch sets. -/
def sumCounts : List Batches → Counts
  | [] => Counts.zero
  | b :: bs => (batchCounts b).add (sumCounts bs)

/-! ### Helper lemmas -/

theorem Counts.add_zero (a : Counts) : a.add Counts.zero = a := by
  cases a
  simp [Counts.add, Counts.zero]

theorem Counts.zero_add (a : Counts) : Counts.zero.add a = a := by
  cases a
  simp [Counts.add, Counts.zero]

theorem Counts.add_assoc (a b c : Counts) :
    (a.add b).add c = a.add (b.add c) := by
  cases a; cases b; cases c
  simp [Counts.add, Nat.add_assoc]

theorem splitFirst_eq_none_of_not_mem (sep : Char) (l : List Char)
    (h : ¬ sep ∈ l) : splitFirst sep l = none := by
  induction l with
  | nil => rfl
  | cons c cs ih =>
    have hc : ¬ c = sep := by
      intro hc
      exact h (by rw [← hc]; exact List.mem_cons_self _ _)
    have hcs : ¬ sep ∈ cs := fun hm => h (List.mem_cons_of_mem _ hm)
    simp only [splitFirst]
    rw [if_neg hc, ih hcs]

theorem splitFirst_isSome_of_mem (sep : Char) (l : List Char)
    (h : sep ∈ l) : (splitFirst sep l).isSome = true := by
  induction l with
  | nil => cases h
  | cons c cs ih =>
    by_cases hc : c = sep
    · simp [splitFirst, hc]
    · have hm : sep ∈ cs := by
        cases h with
        | head => exact absurd rfl hc
        | tail _ hm => exact hm
      have hs := ih hm
      simp only [splitFirst]
      rw [if_neg hc]
      cases hcs : splitFirst sep cs with
      | none => rw [hcs] at hs; cases hs
      | some p => obtain ⟨d, r⟩ := p; simp [hcs]

theorem splitFirst_eq_some_spec (sep : Char) (l : List Char) :
    ∀ d r : List Char, splitFirst sep l = some (d, r) →
      l = d ++ sep :: r ∧ ¬ sep ∈ d := by
  induction l with
  | nil => intro d r h; cases h
  | cons c cs ih =>
    intro d r h
    by_cases hc : c = sep
    · rw [splitFirst, if_pos hc] at h
      cases h
      exact ⟨by rw [hc]; rfl, by simp⟩
    · rw [splitFirst, if_neg hc] at h
      cases hcs : splitFirst sep cs with
      | none => rw [hcs] at h; cases h
      | some p =>
        obtain ⟨d0, r0⟩ := p
        rw [hcs] at h
        cases h
        obtain ⟨hcat, hnm⟩ := ih d0 r hcs
        refine ⟨by rw [List.cons_append, ← hcat], ?_⟩
        intro hm
        cases hm with
        | head => exact hc rfl
        | tail _ hm2 => exact hnm hm2

/-! ### Sample data used by witnesses and counterexamples -/

/-- A labelled class carrying one record of every kind. -/
def sampleClass : OwlClass :=
  { name := "DOID_1", label := ["cancer"], IAO_0000115 := ["a disease"],
    hasExactSynonym := ["carcinoma"], hasRelatedSynonym := [],
    hasNarrowSynonym := [], hasBroadSynonym := [],
    hasDbXref := ["NCIT:C9305"], hasAlternativeId := ["DOID_0"] }

/-- A class with no label: the extractor must skip it. -/
def unlabeledClass : OwlClass :=
  { name := "DOID_2", label := [], IAO_0000115 := ["ignored"],
    hasExactSynonym := ["ignored"], hasRelatedSynonym := [],
    hasNarrowSynonym := [], hasBroadSynonym := [],
    hasDbXref := ["NCIT:C1"], hasAlternativeId := ["DOID_9"] }

/-- A labelled class whose only xref value has two separators. -/
def xrefSampleClass : OwlClass :=
  { name := "DOID_3", label := ["melanoma"], IAO_0000115 := [],
    hasExactSynonym := [], hasRelatedSynonym := [],
    hasNarrowSynonym := [], hasBroadSynonym := [],
    hasDbXref := ["DOID:1234:extra"], hasAlternativeId := [] }

/-- A parsed handle for the `doid` ontology containing `sampleClass`. -/
def sampleOnto : OwlOntology :=
  { name := "doid", base_iri := "http://purl.obolibrary.org/obo/doid.owl",
    versionInfo := ["v1"], description := ["d1", "d2"], title := ["DO"],
    classes := [sampleClass] }

/-- Environment in which every download + parse succeeds with
`sampleOnto`. -/
def envOk : Env := fun _ => .ok sampleOnto

/-- Environment in which every download + parse raises. -/
def envBad : Env := fun _ => .error "malformed owl file"

/-- A committed state holding a previously imported `doid` ontology with
one term, one synonym, one identifier and one xref. -/
def priorDb : DbState :=
  { ontologies := [⟨"doid", "http://old/", some "v0", none, some "DO"⟩]
    terms := [⟨"DOID_old", "old term", none, "doid"⟩]
    synonyms := [⟨"DOID_old", "old synonym", "exact"⟩]
    identifiers := [⟨"DOID_old", "DOID_prev"⟩]
    xrefs := [⟨"DOID_old", "NCIT", "C0"⟩] }

/-! ### Claims -/

/-- Claim C1: the claim states that deleting an Ontology (as the
overwrite path of import does) removes all dependent Term, Synonym,
Identifier and CrossReference rows. The overwrite path issues a
query-level delete, which removes the Ontology row but leaves every
dependent row committed in place: the claimed cascade does not happen. -/
theorem C1_overwrite_delete_leaves_dependent_rows :
    (deleteOntologyQuery priorDb "doid").ontologies = [] ∧
    (deleteOntologyQuery priorDb "doid").terms = priorDb.terms ∧
    (deleteOntologyQuery priorDb "doid").synonyms = priorDb.synonyms ∧
    (deleteOntologyQuery priorDb "doid").identifiers = priorDb.identifiers ∧
    (deleteOntologyQuery priorDb "doid").xrefs = priorDb.xrefs ∧
    ¬ priorDb.terms = [] := by
  decide

/-- Claim C2: the claim states that importing the same file twice with
`overwrite = true` yields identical final row counts, with all child rows
from the new import. In fact the first run commits one Term row but the
second run leaves two (the orphaned old row plus the new one), even
though exactly one Ontology row remains. -/
theorem C2_double_overwrite_import_not_idempotent :
    (importData envOk ["doid"] false true false false
        DbState.empty).db.terms.length = 1 ∧
    (importData envOk ["doid"] false true false false
        (importData envOk ["doid"] false true false false
          DbState.empty).db).db.terms.length = 2 ∧
    (importData envOk ["doid"] false true false false
        (importData envOk ["doid"] false true false false
          DbState.empty).db).db.ontologies.length = 1 := by
  decide

/-- Claim C4: the claim states that an error between obtaining the file
and committing leaves either the full row set for the name or none of it.
With `overwrite = true`, a parse failure arriving after the separately
committed (non-cascading) deletion leaves partial state: the call raises
(`returned = none`), no Ontology row for `doid` remains, yet committed
Term rows referencing `doid` are still visible. -/
theorem C4_parse_failure_after_overwrite_leaves_orphans :
    (importData envBad ["doid"] false true false false priorDb).returned
        = none ∧
    ((importData envBad ["doid"] false true false false
        priorDb).db.ontologies.any fun o => o.id == "doid") = false ∧
    ((importData envBad ["doid"] false true false false
        priorDb).db.terms.any fun t => t.ontology_id == "doid") = true := by
  decide

/-- Claim C7: `rebuild = true` with an empty name sequence drops and
recreates the schema before the (empty) per-name loop, returns the
all-zero count mapping, and leaves no Ontology rows. -/
theorem C7_rebuild_with_empty_names (env : Env)
    (overwrite forceDownload keepFiles : Bool) (db : DbState) :
    importData env [] true overwrite forceDownload keepFiles db =
      ⟨DbState.empty, some Counts.zero, []⟩ ∧
    (importData env [] true overwrite forceDownload keepFiles
        db).db.ontologies = [] :=
  ⟨rfl, rfl⟩

/-- Claim C9: the module-level `import_data` convenience function invokes
the orchestrator with the default empty `obo_names`, so for every
combination of `force_download` and `keep_files` it processes no
ontology, performs no download or insert, and returns the empty count
mapping with the database untouched. -/
theorem C9_module_entry_processes_no_ontology (env : Env)
    (forceDownload keepFiles : Bool) (db : DbState) :
    moduleImportData env forceDownload keepFiles db =
      importData env [] false false forceDownload keepFiles db ∧
    moduleImportData env forceDownload keepFiles db =
      ⟨db, some Counts.zero, []⟩ :=
  ⟨rfl, rfl⟩

/-- Claim C3: a name whose Ontology row already exists is skipped entirely
when `overwrite = false`: the loop continues from an unchanged database,
accumulator and effect trace (so no download, no parse, no write happens
for it), and a single-name call returns the untouched database with the
all-zero count mapping and an empty effect trace. -/
theorem C3_existing_name_skipped (env : Env)
    (forceDownload keepFiles : Bool) (name : String) (rest : List String)
    (db : DbState) (acc : Counts) (evs : List Event)
    (h : (db.ontologies.any fun o => o.id == name) = true) :
    importLoop env false keepFiles (name :: rest) db acc evs =
      importLoop env false keepFiles rest db acc evs ∧
    importData env [name] false false forceDownload keepFiles db =
      ⟨db, some Counts.zero, []⟩ := by
  have hstep : ∀ (rest2 : List String) (acc2 : Counts) (evs2 : List Event),
      importLoop env false keepFiles (name :: rest2) db acc2 evs2 =
        importLoop env false keepFiles rest2 db acc2 evs2 := by
    intro rest2 acc2 evs2
    simp only [importLoop]
    simp [h]
  refine ⟨hstep rest acc evs, ?_⟩
  show importLoop env false keepFiles [name] db Counts.zero [] =
    ⟨db, some Counts.zero, []⟩
  rw [hstep]
  rfl

theorem C3_witness :
    ((priorDb.ontologies.any fun o => o.id == "doid") = true) ∧
    importData envOk ["doid"] false false false false priorDb =
      ⟨priorDb, some Counts.zero, []⟩ :=
  ⟨by decide,
   (C3_existing_name_skipped envOk false false "doid" [] priorDb
      Counts.zero [] (by decide)).2⟩

/-- Claim C5: a class yields a Term record iff it carries at least one
label; a label-less class yields no record of any kind; for an extracted
Term the identifier is the class's native short name and the name is the
first label value if a label is present, else the identifier itself. -/
theorem C5_term_iff_label (ontology_id : String) (cls : OwlClass) :
    (¬ (extractClass ontology_id cls).terms = [] ↔ ¬ cls.label = []) ∧
    (cls.label = [] → extractClass ontology_id cls = ⟨[], [], [], []⟩) ∧
    (∀ l ls, cls.label = l :: ls →
      (extractClass ontology_id cls).terms =
        [⟨cls.name, l, cls.IAO_0000115.head?, ontology_id⟩]) := by
  refine ⟨?_, ?_, ?_⟩
  · cases hl : cls.label with
    | nil => simp [extractClass, hl]
    | cons l ls => simp [extractClass, hl]
  · intro hl
    simp [extractClass, hl]
  · intro l ls hl
    simp [extractClass, hl]

theorem C5_witness :
    (extractClass "doid" sampleClass).terms =
      [⟨"DOID_1", "cancer", some "a disease", "doid"⟩] ∧
    extractClass "doid" unlabeledClass = ⟨[], [], [], []⟩ :=
  ⟨(C5_term_iff_label "doid" sampleClass).2.2 "cancer" [] rfl,
   (C5_term_iff_label "doid" unlabeledClass).2.1 rfl⟩

/-- Claim C6: for the cross-reference value of an extracted class, a value
without a separator yields no CrossReference record; a value with at least
one separator yields exactly one record, split at the first occurrence:
the database part is the (separator-free) substring before the first
separator and the reference id the substring after it. -/
theorem C6_xref_value_split (ontology_id : String) (cls : OwlClass)
    (v : String) (hlab : ¬ cls.label = []) (hx : cls.hasDbXref = [v]) :
    (¬ ':' ∈ v.toList → (extractClass ontology_id cls).xrefs = []) ∧
    (':' ∈ v.toList → ∃ d r : String,
      v.toList = d.toList ++ ':' :: r.toList ∧ ¬ ':' ∈ d.toList ∧
      (extractClass ontology_id cls).xrefs = [⟨cls.name, d, r⟩]) := by
  have hxrefs : (extractClass ontology_id cls).xrefs =
      xrefRowsForValue cls.name v := by
    simp [extractClass, hlab, hx, xrefRows]
  constructor
  · intro hmem
    rw [hxrefs]
    unfold xrefRowsForValue
    rw [splitFirst_eq_none_of_not_mem ':' v.toList hmem]
  · intro hmem
    have hsome := splitFirst_isSome_of_mem ':' v.toList hmem
    cases hs : splitFirst ':' v.toList with
    | none => rw [hs] at hsome; cases hsome
    | some p =>
      obtain ⟨dl, rl⟩ := p
      obtain ⟨hcat, hnot⟩ := splitFirst_eq_some_spec ':' v.toList dl rl hs
      refine ⟨String.mk dl, String.mk rl, ?_, ?_, ?_⟩
      · exact hcat
      · exact hnot
      · rw [hxrefs]
        unfold xrefRowsForValue
        rw [hs]

theorem C6_witness :
    (':' ∈ ("DOID:1234:extra").toList) ∧
    (∃ d r : String,
      ("DOID:1234:extra").toList = d.toList ++ ':' :: r.toList ∧
      ¬ ':' ∈ d.toList ∧
      (extractClass "doid" xrefSampleClass).xrefs =
        [⟨xrefSampleClass.name, d, r⟩]) ∧
    (extractClass "doid" xrefSampleClass).xrefs =
      [⟨"DOID_3", "DOID", "1234:extra"⟩] :=
  ⟨by decide,
   (C6_xref_value_split "doid" xrefSampleClass "DOID:1234:extra"
      (by decide) rfl).2 (by decide),
   by decide⟩

/-- Claim C10: an emitted CrossReference record round-trips: database part
++ separator ++ reference id reproduces the raw value exactly, and the
database part contains no separator. -/
theorem C10_xref_roundtrip (term_id v d r : String)
    (h : xrefRowsForValue term_id v = [⟨term_id, d, r⟩]) :
    d ++ ":" ++ r = v ∧ ¬ ':' ∈ d.toList := by
  unfold xrefRowsForValue at h
  cases hs : splitFirst ':' v.toList with
  | none => rw [hs] at h; cases h
  | some p =>
    obtain ⟨dl, rl⟩ := p
    rw [hs] at h
    injection h with h1 h2
    injection h1 with ha hb hc
    subst hb
    subst hc
    obtain ⟨hcat, hnm⟩ := splitFirst_eq_some_spec ':' v.toList dl rl hs
    constructor
    · cases v with
      | mk data =>
        have hdata : data = dl ++ ':' :: rl := hcat
        rw [show (String.mk dl ++ ":" ++ String.mk rl : String) =
              String.mk ((dl ++ [':']) ++ rl) from rfl, hdata,
            List.append_assoc]
        rfl
    · exact hnm

theorem C10_witness :
    xrefRowsForValue "T2" "HP:0000118:x" = [⟨"T2", "HP", "0000118:x"⟩] ∧
    (("HP" : String) ++ ":" ++ "0000118:x" = "HP:0000118:x" ∧
      ¬ ':' ∈ ("HP" : String).toList) :=
  ⟨by decide,
   C10_xref_roundtrip "T2" "HP:0000118:x" "HP" "0000118:x" (by decide)⟩

/-- Accumulator lemma for the import loop: a normally returned count
mapping equals the incoming accumulator plus the per-kind sizes of the
batches the loop bulk-inserts. -/
theorem importLoop_counts (env : Env) (overwrite keepFiles : Bool)
    (names : List String) :
    ∀ (db : DbState) (acc : Counts) (evs : List Event) (c : Counts),
      (importLoop env overwrite keepFiles names db acc evs).returned =
          some c →
      c = acc.add (sumCounts (insertedBatches env overwrite names db)) := by
  induction names with
  | nil =>
    intro db acc evs c h
    simp only [importLoop] at h
    cases h
    simp [insertedBatches, sumCounts, Counts.add_zero]
  | cons name rest ih =>
    intro db acc evs c h
    simp only [importLoop] at h
    simp only [insertedBatches]
    by_cases hex :
        ((db.ontologies.any fun o => o.id == name) && !overwrite) = true
    · rw [if_pos hex] at h
      rw [if_pos hex]
      exact ih db acc evs c h
    · rw [if_neg hex] at h
      rw [if_neg hex]
      cases henv : env name with
      | error e =>
        rw [henv] at h
        simp at h
      | ok onto =>
        rw [henv] at h
        have := ih _ _ _ c h
        rw [this]
        simp only [sumCounts]
        rw [Counts.add_assoc]

/-- Claim C8: when import returns normally, the returned count for each
record kind equals the sum, over all processed (non-skipped, committed)
ontologies, of the number of records of that kind extracted and
bulk-inserted for that ontology. -/
theorem C8_counts_are_batch_sums (env : Env) (names : List String)
    (rebuild overwrite forceDownload keepFiles : Bool) (db : DbState)
    (c : Counts)
    (h : (importData env names rebuild overwrite forceDownload keepFiles
        db).returned = some c) :
    c = sumCounts (insertedBatches env overwrite names
        (if rebuild then DbState.empty else db)) := by
  have hc := importLoop_counts env overwrite keepFiles names
      (if rebuild then DbState.empty else db) Counts.zero [] c h
  rw [Counts.zero_add] at hc
  exact hc

theorem C8_witness :
    (importData envOk ["doid"] false true false false
        DbState.empty).returned = some ⟨1, 1, 1, 1⟩ ∧
    (⟨1, 1, 1, 1⟩ : Counts) = sumCounts (insertedBatches envOk true ["doid"]
        (if false then DbState.empty else DbState.empty)) :=
  ⟨by decide,
   C8_counts_are_batch_sums envOk ["doid"] false true false false
      DbState.empty ⟨1, 1, 1, 1⟩ (by decide)⟩

end BiokbObo
